import Mathlib

/-!
Verification of the order-processing core of the Solana DEX engine backend:
a shallow embedding of the routing engine (services/dexRouter.ts), the order
worker (workers/orderWorker.ts) and the WebSocket fan-out
(services/websocket.ts), with theorems about the routing decision, the
slippage bound, the worker's status-emission sequence and failure policy,
and the fan-out's room bookkeeping.

Modelling conventions: JavaScript numbers are rationals; each Math.random()
draw is an explicit parameter in the half-open unit interval; Number.toFixed
rounding is round-to-nearest at the given number of decimals; string
interpolation of numeric values into log/justification strings is modelled
by structured data recording which template was used and which values were
interpolated; the awaited side effects of the worker (database writes and
WebSocket broadcasts) are modelled as an explicit event trace in program
order.
-/

namespace DexEngine

/-- The two venues compared by the router. -/
inductive Dex where
  | Raydium
  | Meteora
deriving DecidableEq, Repr

/-- The opposite venue. -/
def Dex.other : Dex → Dex
  | .Raydium => .Meteora
  | .Meteora => .Raydium

/-- A venue quote (types/order.ts, DexQuote): venue, quoted price, fee
fraction and liquidity score. -/
structure DexQuote where
  dex : Dex
  price : ℚ
  fee : ℚ
  liquidityScore : ℚ
deriving DecidableEq, Repr

/-- Effective price after fees: price * (1 - fee)
(dexRouter.ts lines 145-146). -/
def DexQuote.effective (q : DexQuote) : ℚ := q.price * (1 - q.fee)

/-- The justification built by compareAndRoute, modelling the reason string
structurally: each constructor records which string template the source
uses and which numeric values it interpolates (the liquidity template
interpolates the two liquidity scores, shown as percentages; the best-price
template interpolates only the selected venue's effective price, shown to
six decimals). -/
inductive Reason where
  | liquidityLarge (selected : Dex) (selectedScore otherScore : ℚ)
  | bestPrice (selected : Dex) (effective : ℚ)
deriving DecidableEq, Repr

/-- The numeric values interpolated into the justification string. -/
def Reason.mentionedValues : Reason → List ℚ
  | .liquidityLarge _ a b => [a, b]
  | .bestPrice _ e => [e]

/-- Whether the justification is the large-order liquidity template. -/
def Reason.isLiquidity : Reason → Bool
  | .liquidityLarge .. => true
  | .bestPrice .. => false

/-- Routing outcome (types/order.ts, RoutingResult). -/
structure RoutingResult where
  selectedDex : Dex
  raydiumQuote : DexQuote
  meteoraQuote : DexQuote
  reason : Reason
deriving DecidableEq, Repr

/-- The quote a routing result holds for a given venue. -/
def RoutingResult.quoteOf (res : RoutingResult) : Dex → DexQuote
  | .Raydium => res.raydiumQuote
  | .Meteora => res.meteoraQuote

/-- The best-effective-price fallback of compareAndRoute: select by the >=
comparison on effective prices (ties to Raydium) and justify with the
selected venue's effective price. The source spells this block out twice
(dexRouter.ts lines 170-172 and 175-177), identically. -/
def bestPriceResult (raydiumQuote meteoraQuote : DexQuote) : RoutingResult :=
  let raydiumEffective := raydiumQuote.price * (1 - raydiumQuote.fee)
  let meteoraEffective := meteoraQuote.price * (1 - meteoraQuote.fee)
  let selectedDex := if raydiumEffective ≥ meteoraEffective
    then Dex.Raydium else Dex.Meteora
  { selectedDex, raydiumQuote, meteoraQuote,
    reason := .bestPrice selectedDex (if selectedDex = Dex.Raydium
      then raydiumEffective else meteoraEffective) }

/-- The decision logic of MockDexRouter.compareAndRoute (dexRouter.ts lines
144-190), taking the two already-fetched quotes and the order amount. The
quote fetching itself is randomized and latency-simulated in the source, so
the quotes are inputs here. -/
def compareAndRoute (raydiumQuote meteoraQuote : DexQuote) (amount : ℚ) :
    RoutingResult :=
  let raydiumEffective := raydiumQuote.price * (1 - raydiumQuote.fee)
  let meteoraEffective := meteoraQuote.price * (1 - meteoraQuote.fee)
  let liquidityThreshold : ℚ := 8/10
  if amount > 100 then
    let priceDiffPercent :=
      |raydiumEffective - meteoraEffective| /
        max raydiumEffective meteoraEffective * 100
    if priceDiffPercent < 1 ∧ raydiumQuote.liquidityScore > liquidityThreshold ∧
        raydiumQuote.liquidityScore > meteoraQuote.liquidityScore then
      { selectedDex := .Raydium, raydiumQuote, meteoraQuote,
        reason := .liquidityLarge .Raydium raydiumQuote.liquidityScore
          meteoraQuote.liquidityScore }
    else if priceDiffPercent < 1 ∧ meteoraQuote.liquidityScore > liquidityThreshold ∧
        meteoraQuote.liquidityScore > raydiumQuote.liquidityScore then
      { selectedDex := .Meteora, raydiumQuote, meteoraQuote,
        reason := .liquidityLarge .Meteora meteoraQuote.liquidityScore
          raydiumQuote.liquidityScore }
    else
      bestPriceResult raydiumQuote meteoraQuote
  else
    bestPriceResult raydiumQuote meteoraQuote

/-- Sample Raydium quote used as a concrete evaluation point. -/
def qR : DexQuote := ⟨Dex.Raydium, 100, 3/1000, 9/10⟩

/-- Sample Meteora quote used as a concrete evaluation point. -/
def qM : DexQuote := ⟨Dex.Meteora, 99, 2/1000, 7/10⟩

/-- Rewriting of the source's percentage test (difference divided by the max,
times 100, under 1) into the spec's form (difference under one percent of the larger
price), valid when the larger price is positive. -/
lemma diffPercent_lt_iff (d M : ℚ) (hM : 0 < M) :
    d / M * 100 < 1 ↔ d < M / 100 := by
  rw [div_mul_eq_mul_div, div_lt_one hM, lt_div_iff₀ (by norm_num : (0:ℚ) < 100)]

lemma bestPriceResult_raydiumQuote (rq mq : DexQuote) :
    (bestPriceResult rq mq).raydiumQuote = rq := by
  simp only [bestPriceResult]

lemma bestPriceResult_meteoraQuote (rq mq : DexQuote) :
    (bestPriceResult rq mq).meteoraQuote = mq := by
  simp only [bestPriceResult]

lemma bestPriceResult_selectedDex (rq mq : DexQuote) :
    (bestPriceResult rq mq).selectedDex =
      if rq.effective ≥ mq.effective then Dex.Raydium else Dex.Meteora := by
  simp only [bestPriceResult, DexQuote.effective]

lemma bestPriceResult_reason (rq mq : DexQuote) :
    (bestPriceResult rq mq).reason =
      Reason.bestPrice (bestPriceResult rq mq).selectedDex
        (((bestPriceResult rq mq).quoteOf (bestPriceResult rq mq).selectedDex).effective) := by
  simp only [bestPriceResult, DexQuote.effective]
  by_cases h : rq.price * (1 - rq.fee) ≥ mq.price * (1 - mq.fee) <;>
    simp [h, RoutingResult.quoteOf]

/-- Claim C1: the liquidity override of compareAndRoute fires for venue d
exactly when the amount exceeds 100, the absolute effective-price
difference is under one percent of the larger effective price, and d's
liquidity score exceeds 0.8 and the other venue's score; in every other
case the venue with the strictly higher effective price wins, with ties
going to Raydium through the >= comparison; and for amount at most 100 the
override never fires. -/
theorem compareAndRoute_selection_rule (rq mq : DexQuote) (amount : ℚ)
    (hr : 0 < rq.effective) (hm : 0 < mq.effective) :
    (∀ d, ((compareAndRoute rq mq amount).reason =
        Reason.liquidityLarge d
          ((compareAndRoute rq mq amount).quoteOf d).liquidityScore
          ((compareAndRoute rq mq amount).quoteOf d.other).liquidityScore ∧
        (compareAndRoute rq mq amount).selectedDex = d) ↔
      (100 < amount ∧
       |rq.effective - mq.effective| < max rq.effective mq.effective / 100 ∧
       8/10 < ((compareAndRoute rq mq amount).quoteOf d).liquidityScore ∧
       ((compareAndRoute rq mq amount).quoteOf d.other).liquidityScore <
         ((compareAndRoute rq mq amount).quoteOf d).liquidityScore))
    ∧ ((compareAndRoute rq mq amount).reason.isLiquidity = false →
       (compareAndRoute rq mq amount).selectedDex =
         if rq.effective ≥ mq.effective then Dex.Raydium else Dex.Meteora)
    ∧ (amount ≤ 100 → (compareAndRoute rq mq amount).reason.isLiquidity = false) := by
  have hmax : 0 < max rq.effective mq.effective := lt_max_of_lt_left hr
  have hdiff := diffPercent_lt_iff |rq.effective - mq.effective|
    (max rq.effective mq.effective) hmax
  by_cases h1 : (100:ℚ) < amount
  · by_cases h2 : |rq.price * (1 - rq.fee) - mq.price * (1 - mq.fee)| /
        max (rq.price * (1 - rq.fee)) (mq.price * (1 - mq.fee)) * 100 < 1 ∧
        rq.liquidityScore > 8/10 ∧ rq.liquidityScore > mq.liquidityScore
    · have hres : compareAndRoute rq mq amount =
          { selectedDex := .Raydium, raydiumQuote := rq, meteoraQuote := mq,
            reason := .liquidityLarge .Raydium rq.liquidityScore mq.liquidityScore } := by
        simp only [compareAndRoute, if_pos h1, if_pos h2]
      rw [hres]
      refine ⟨fun d => ?_, fun hl => ?_, fun ha => absurd h1 (by linarith)⟩
      · cases d <;> simp only [RoutingResult.quoteOf, Dex.other]
        · constructor
          · exact fun _ => ⟨h1, hdiff.mp h2.1, h2.2.1, h2.2.2⟩
          · exact fun _ => ⟨trivial, trivial⟩
        · constructor
          · rintro ⟨hbad, -⟩
            simp at hbad
          · rintro ⟨-, -, -, hbad⟩
            exact absurd h2.2.2 (by linarith)
      · simp [Reason.isLiquidity] at hl
    · by_cases h3 : |rq.price * (1 - rq.fee) - mq.price * (1 - mq.fee)| /
          max (rq.price * (1 - rq.fee)) (mq.price * (1 - mq.fee)) * 100 < 1 ∧
          mq.liquidityScore > 8/10 ∧ mq.liquidityScore > rq.liquidityScore
      · have hres : compareAndRoute rq mq amount =
            { selectedDex := .Meteora, raydiumQuote := rq, meteoraQuote := mq,
              reason := .liquidityLarge .Meteora mq.liquidityScore rq.liquidityScore } := by
          simp only [compareAndRoute, if_pos h1, if_neg h2, if_pos h3]
        rw [hres]
        refine ⟨fun d => ?_, fun hl => ?_, fun ha => absurd h1 (by linarith)⟩
        · cases d <;> simp only [RoutingResult.quoteOf, Dex.other]
          · constructor
            · rintro ⟨hbad, -⟩
              simp at hbad
            · rintro ⟨-, -, -, hbad⟩
              exact absurd h3.2.2 (by linarith)
          · constructor
            · exact fun _ => ⟨h1, hdiff.mp h3.1, h3.2.1, h3.2.2⟩
            · exact fun _ => ⟨trivial, trivial⟩
        · simp [Reason.isLiquidity] at hl
      · have hres : compareAndRoute rq mq amount = bestPriceResult rq mq := by
          simp only [compareAndRoute, if_pos h1, if_neg h2, if_neg h3]
        rw [hres]
        refine ⟨fun d => ?_, fun _ => bestPriceResult_selectedDex rq mq,
          fun ha => absurd h1 (by linarith)⟩
        constructor
        · rintro ⟨hbad, -⟩
          rw [bestPriceResult_reason rq mq] at hbad
          exact absurd hbad (by simp)
        · rintro ⟨-, hclose, hd1, hd2⟩
          exfalso
          have hclose' : |rq.price * (1 - rq.fee) - mq.price * (1 - mq.fee)| /
              max (rq.price * (1 - rq.fee)) (mq.price * (1 - mq.fee)) * 100 < 1 :=
            hdiff.mpr hclose
          cases d <;>
            simp only [RoutingResult.quoteOf, Dex.other, bestPriceResult_raydiumQuote,
              bestPriceResult_meteoraQuote] at hd1 hd2
          · exact h2 ⟨hclose', hd1, hd2⟩
          · exact h3 ⟨hclose', hd1, hd2⟩
  · have hres : compareAndRoute rq mq amount = bestPriceResult rq mq := by
      simp only [compareAndRoute, if_neg h1]
    rw [hres]
    refine ⟨fun d => ?_, fun _ => bestPriceResult_selectedDex rq mq, fun _ => ?_⟩
    · constructor
      · rintro ⟨hbad, -⟩
        rw [bestPriceResult_reason rq mq] at hbad
        exact absurd hbad (by simp)
      · rintro ⟨hamt, -⟩
        exact absurd hamt h1
    · rw [bestPriceResult_reason rq mq]
      simp [Reason.isLiquidity]

/-- Witness for claim C1 at concrete quotes: the hypotheses hold and the
best-effective-price rule gives the selected venue for a small order. -/
theorem compareAndRoute_selection_rule_witness :
    (compareAndRoute qR qM 1).selectedDex =
      if qR.effective ≥ qM.effective then Dex.Raydium else Dex.Meteora :=
  (compareAndRoute_selection_rule qR qM 1
    (by norm_num [qR, DexQuote.effective]) (by norm_num [qM, DexQuote.effective])).2.1
    (by norm_num [compareAndRoute, bestPriceResult, qR, qM, Reason.isLiquidity])

lemma bestPriceResult_bound (rq mq : DexQuote)
    (hr : 0 < rq.effective) (hm : 0 < mq.effective) :
    99/100 * (((bestPriceResult rq mq).quoteOf
        (bestPriceResult rq mq).selectedDex.other).effective) ≤
      ((bestPriceResult rq mq).quoteOf (bestPriceResult rq mq).selectedDex).effective := by
  have hsel := bestPriceResult_selectedDex rq mq
  by_cases hge : rq.effective ≥ mq.effective
  · rw [if_pos hge] at hsel
    rw [hsel]
    simp only [Dex.other, RoutingResult.quoteOf, bestPriceResult_raydiumQuote,
      bestPriceResult_meteoraQuote]
    linarith
  · rw [if_neg hge] at hsel
    rw [hsel]
    simp only [Dex.other, RoutingResult.quoteOf, bestPriceResult_raydiumQuote,
      bestPriceResult_meteoraQuote]
    linarith

/-- Claim C5: the venue selected by compareAndRoute has an effective price
at least 0.99 times the other venue's effective price, so the liquidity
override never picks a venue more than about one percent worse. -/
theorem compareAndRoute_effective_bound (rq mq : DexQuote) (amount : ℚ)
    (hr : 0 < rq.effective) (hm : 0 < mq.effective) :
    99/100 * (((compareAndRoute rq mq amount).quoteOf
        (compareAndRoute rq mq amount).selectedDex.other).effective) ≤
      ((compareAndRoute rq mq amount).quoteOf
        (compareAndRoute rq mq amount).selectedDex).effective := by
  have hmax : 0 < max rq.effective mq.effective := lt_max_of_lt_left hr
  have hdiff := diffPercent_lt_iff |rq.effective - mq.effective|
    (max rq.effective mq.effective) hmax
  by_cases h1 : (100:ℚ) < amount
  · by_cases h2 : |rq.price * (1 - rq.fee) - mq.price * (1 - mq.fee)| /
        max (rq.price * (1 - rq.fee)) (mq.price * (1 - mq.fee)) * 100 < 1 ∧
        rq.liquidityScore > 8/10 ∧ rq.liquidityScore > mq.liquidityScore
    · have hres : compareAndRoute rq mq amount =
          { selectedDex := .Raydium, raydiumQuote := rq, meteoraQuote := mq,
            reason := .liquidityLarge .Raydium rq.liquidityScore mq.liquidityScore } := by
        simp only [compareAndRoute, if_pos h1, if_pos h2]
      have hcl := hdiff.mp h2.1
      rw [abs_lt] at hcl
      rw [hres]
      simp only [Dex.other, RoutingResult.quoteOf]
      rcases max_cases rq.effective mq.effective with ⟨he, _⟩ | ⟨he, _⟩ <;>
        rw [he] at hcl <;> linarith
    · by_cases h3 : |rq.price * (1 - rq.fee) - mq.price * (1 - mq.fee)| /
          max (rq.price * (1 - rq.fee)) (mq.price * (1 - mq.fee)) * 100 < 1 ∧
          mq.liquidityScore > 8/10 ∧ mq.liquidityScore > rq.liquidityScore
      · have hres : compareAndRoute rq mq amount =
            { selectedDex := .Meteora, raydiumQuote := rq, meteoraQuote := mq,
              reason := .liquidityLarge .Meteora mq.liquidityScore rq.liquidityScore } := by
          simp only [compareAndRoute, if_pos h1, if_neg h2, if_pos h3]
        have hcl := hdiff.mp h3.1
        rw [abs_lt] at hcl
        rw [hres]
        simp only [Dex.other, RoutingResult.quoteOf]
        rcases max_cases rq.effective mq.effective with ⟨he, _⟩ | ⟨he, _⟩ <;>
          rw [he] at hcl <;> linarith
      · have hres : compareAndRoute rq mq amount = bestPriceResult rq mq := by
          simp only [compareAndRoute, if_pos h1, if_neg h2, if_neg h3]
        rw [hres]
        exact bestPriceResult_bound rq mq hr hm
  · have hres : compareAndRoute rq mq amount = bestPriceResult rq mq := by
      simp only [compareAndRoute, if_neg h1]
    rw [hres]
    exact bestPriceResult_bound rq mq hr hm

/-- Witness for claim C5 at concrete quotes. -/
theorem compareAndRoute_effective_bound_witness :
    99/100 * (((compareAndRoute qR qM 1).quoteOf
        (compareAndRoute qR qM 1).selectedDex.other).effective) ≤
      ((compareAndRoute qR qM 1).quoteOf
        (compareAndRoute qR qM 1).selectedDex).effective :=
  compareAndRoute_effective_bound qR qM 1
    (by norm_num [qR, DexQuote.effective]) (by norm_num [qM, DexQuote.effective])

/-- Counterexample to claim C8 as stated: the justification is required to
include both venues' effective prices, but on this small order the router
takes the best-effective-price branch and its justification string
interpolates only the selected venue's effective price, so the other
venue's effective price (98.802) does not appear among the interpolated
values. -/
theorem compareAndRoute_reason_missing_other_effective :
    qM.effective ∉ (compareAndRoute qR qM 1).reason.mentionedValues := by
  norm_num [compareAndRoute, bestPriceResult, qR, qM, DexQuote.effective,
    Reason.mentionedValues]

/-- Claim C8 (amended): the justification names the decisive factor through
its template, and the values it interpolates are: in the liquidity case,
the selected venue and both venues' liquidity scores (selected first); in
the best-effective-price case, the selected venue and that venue's own
effective price only. -/
theorem compareAndRoute_reason_content (rq mq : DexQuote) (amount : ℚ) :
    (∀ d a b, (compareAndRoute rq mq amount).reason = Reason.liquidityLarge d a b →
      d = (compareAndRoute rq mq amount).selectedDex ∧
      a = ((compareAndRoute rq mq amount).quoteOf d).liquidityScore ∧
      b = ((compareAndRoute rq mq amount).quoteOf d.other).liquidityScore)
    ∧ (∀ d e, (compareAndRoute rq mq amount).reason = Reason.bestPrice d e →
      d = (compareAndRoute rq mq amount).selectedDex ∧
      e = ((compareAndRoute rq mq amount).quoteOf d).effective) := by
  by_cases h1 : (100:ℚ) < amount
  · by_cases h2 : |rq.price * (1 - rq.fee) - mq.price * (1 - mq.fee)| /
        max (rq.price * (1 - rq.fee)) (mq.price * (1 - mq.fee)) * 100 < 1 ∧
        rq.liquidityScore > 8/10 ∧ rq.liquidityScore > mq.liquidityScore
    · have hres : compareAndRoute rq mq amount =
          { selectedDex := .Raydium, raydiumQuote := rq, meteoraQuote := mq,
            reason := .liquidityLarge .Raydium rq.liquidityScore mq.liquidityScore } := by
        simp only [compareAndRoute, if_pos h1, if_pos h2]
      rw [hres]
      refine ⟨fun d a b hab => ?_, fun d e he => ?_⟩
      · injection hab with hd ha hb
        subst hd; subst ha; subst hb
        simp [RoutingResult.quoteOf, Dex.other]
      · simp at he
    · by_cases h3 : |rq.price * (1 - rq.fee) - mq.price * (1 - mq.fee)| /
          max (rq.price * (1 - rq.fee)) (mq.price * (1 - mq.fee)) * 100 < 1 ∧
          mq.liquidityScore > 8/10 ∧ mq.liquidityScore > rq.liquidityScore
      · have hres : compareAndRoute rq mq amount =
            { selectedDex := .Meteora, raydiumQuote := rq, meteoraQuote := mq,
              reason := .liquidityLarge .Meteora mq.liquidityScore rq.liquidityScore } := by
          simp only [compareAndRoute, if_pos h1, if_neg h2, if_pos h3]
        rw [hres]
        refine ⟨fun d a b hab => ?_, fun d e he => ?_⟩
        · injection hab with hd ha hb
          subst hd; subst ha; subst hb
          simp [RoutingResult.quoteOf, Dex.other]
        · simp at he
      · have hres : compareAndRoute rq mq amount = bestPriceResult rq mq := by
          simp only [compareAndRoute, if_pos h1, if_neg h2, if_neg h3]
        rw [hres]
        refine ⟨fun d a b hab => ?_, fun d e he => ?_⟩
        · rw [bestPriceResult_reason rq mq] at hab
          simp at hab
        · rw [bestPriceResult_reason rq mq] at he
          injection he with hd heff
          subst hd
          exact ⟨rfl, heff.symm⟩
  · have hres : compareAndRoute rq mq amount = bestPriceResult rq mq := by
      simp only [compareAndRoute, if_neg h1]
    rw [hres]
    refine ⟨fun d a b hab => ?_, fun d e he => ?_⟩
    · rw [bestPriceResult_reason rq mq] at hab
      simp at hab
    · rw [bestPriceResult_reason rq mq] at he
      injection he with hd heff
      subst hd
      exact ⟨rfl, heff.symm⟩

/-- Witness for claim C8's amended theorem at concrete quotes: the
best-effective-price justification carries the selected venue and its own
effective price. -/
theorem compareAndRoute_reason_content_witness :
    Dex.Raydium = (compareAndRoute qR qM 1).selectedDex ∧
    qR.effective = ((compareAndRoute qR qM 1).quoteOf Dex.Raydium).effective :=
  (compareAndRoute_reason_content qR qM 1).2 Dex.Raydium qR.effective
    (by norm_num [compareAndRoute, bestPriceResult, qR, qM, DexQuote.effective])

/-- Number.toFixed(8) rounding: round to the nearest multiple of 10^-8. -/
def round8 (q : ℚ) : ℚ := (round (q * 10^8) : ℚ) / 10^8

/-- Number.toFixed(6) rounding: round to the nearest multiple of 10^-6. -/
def round6 (q : ℚ) : ℚ := (round (q * 10^6) : ℚ) / 10^6

/-- Swap execution outcome (types/order.ts, SwapResult). -/
structure SwapResult where
  success : Bool
  txHash : String
  executedPrice : ℚ
  dex : Dex
  slippage : ℚ
deriving DecidableEq, Repr

/-- MockDexRouter.executeSwap (dexRouter.ts lines 200-241). The first three
arguments are carried for logging only, as in the source; r is the
Math.random() draw for the slippage, rs the draw for the success check, and
txHash the generated transaction identifier (a venue prefix plus a fresh
random token in the source). -/
def executeSwap (tokenIn tokenOut : String) (amount : ℚ) (dex : Dex)
    (quotedPrice : ℚ) (r rs : ℚ) (txHash : String) : SwapResult :=
  let slippage := -(5/1000) + r * (7/1000)
  let executedPrice := quotedPrice * (1 + slippage)
  { success := decide (rs > 1/20),
    txHash := txHash,
    executedPrice := round8 executedPrice,
    dex := dex,
    slippage := round6 slippage }

lemma abs_round8_sub (q : ℚ) : |round8 q - q| ≤ 1 / (2 * 10^8) := by
  have h := abs_sub_round (q * 10^8)
  rw [abs_sub_comm] at h
  have he : round8 q - q = ((round (q * 10^8) : ℚ) - q * 10^8) / 10^8 := by
    rw [round8]; ring
  rw [he, abs_div, abs_of_pos (by norm_num : (0:ℚ) < 10^8),
    div_le_iff₀ (by norm_num : (0:ℚ) < 10^8)]
  have h2 : (1:ℚ) / (2 * 10^8) * 10^8 = 1/2 := by norm_num
  rw [h2]
  exact h

/-- Claim C7: the executed price returned by executeSwap equals the quoted
price times (1 + s) for a slippage s in the interval from -0.005 to +0.002,
up to the 8-decimal rounding of the result; in particular, with quoted
price 100 the executed price lies in the interval from 99 to 101. -/
theorem executeSwap_slippage_bound (tokenIn tokenOut : String) (amount : ℚ)
    (dex : Dex) (quotedPrice r rs : ℚ) (txHash : String)
    (h0 : 0 ≤ r) (h1 : r < 1) :
    (∃ s, -(5/1000) ≤ s ∧ s ≤ 2/1000 ∧
      |(executeSwap tokenIn tokenOut amount dex quotedPrice r rs txHash).executedPrice -
        quotedPrice * (1 + s)| ≤ 1 / (2 * 10^8))
    ∧ (quotedPrice = 100 →
      99 ≤ (executeSwap tokenIn tokenOut amount dex quotedPrice r rs txHash).executedPrice ∧
      (executeSwap tokenIn tokenOut amount dex quotedPrice r rs txHash).executedPrice ≤ 101) := by
  have hs0 : -(5/1000) ≤ -(5/1000) + r * (7/1000) := by nlinarith
  have hs1 : -(5/1000) + r * (7/1000) ≤ 2/1000 := by nlinarith
  have hprice : (executeSwap tokenIn tokenOut amount dex quotedPrice r rs txHash).executedPrice =
      round8 (quotedPrice * (1 + (-(5/1000) + r * (7/1000)))) := by
    simp only [executeSwap]
  have hrnd := abs_round8_sub (quotedPrice * (1 + (-(5/1000) + r * (7/1000))))
  refine ⟨⟨-(5/1000) + r * (7/1000), hs0, hs1, ?_⟩, fun hq => ?_⟩
  · rw [hprice]
    exact hrnd
  · subst hq
    rw [abs_le] at hrnd
    rw [hprice]
    constructor <;> nlinarith

/-- Witness for claim C7 at a concrete draw. -/
theorem executeSwap_slippage_bound_witness :
    (∃ s, -(5/1000) ≤ s ∧ s ≤ 2/1000 ∧
      |(executeSwap "SOL" "USDC" 1 Dex.Raydium 100 (1/2) 1 "tx").executedPrice -
        100 * (1 + s)| ≤ 1 / (2 * 10^8))
    ∧ ((100:ℚ) = 100 →
      99 ≤ (executeSwap "SOL" "USDC" 1 Dex.Raydium 100 (1/2) 1 "tx").executedPrice ∧
      (executeSwap "SOL" "USDC" 1 Dex.Raydium 100 (1/2) 1 "tx").executedPrice ≤ 101) :=
  executeSwap_slippage_bound "SOL" "USDC" 1 Dex.Raydium 100 (1/2) 1 "tx"
    (by norm_num) (by norm_num)

/-- Order lifecycle statuses (types/order.ts, OrderStatusType). -/
inductive OrderStatusType where
  | pending
  | routing
  | building
  | submitted
  | confirmed
  | failed
deriving DecidableEq, Repr

/-- The optional payload broadcast with a status update (types/order.ts,
OrderStatusData). -/
structure WsData where
  dex : Option Dex := none
  raydiumPrice : Option ℚ := none
  meteoraPrice : Option ℚ := none
  txHash : Option String := none
  executedPrice : Option ℚ := none
  error : Option String := none
deriving DecidableEq, Repr

/-- The optional columns written by the database update in
updateOrderStatus (orderWorker.ts lines 40-49). -/
structure DbFields where
  dex : Option Dex := none
  txHash : Option String := none
  price : Option ℚ := none
  error : Option String := none
deriving DecidableEq, Repr

/-- One awaited side effect of the worker, in program order: a database
write of the new status and fields, or a WebSocket broadcast of a status
message. -/
inductive Event where
  | persist (status : OrderStatusType) (fields : DbFields)
  | broadcastMsg (status : OrderStatusType) (data : Option WsData)
deriving DecidableEq, Repr

/-- JavaScript truthiness guard on the conditional spread in the database
update: an empty string is falsy, so the column is not written. -/
def truthyStr (o : Option String) : Option String :=
  o.bind fun s => if s = "" then none else some s

/-- JavaScript truthiness guard for a numeric field: zero is falsy, so the
column is not written. -/
def truthyRat (o : Option ℚ) : Option ℚ :=
  o.bind fun q => if q = 0 then none else some q

/-- The worker's updateOrderStatus (orderWorker.ts lines 27-54): persist the
status and the truthy data fields to the database, then broadcast the
status message with its WebSocket payload. The Dex field is a nonempty
string in the source, hence always truthy. -/
def updateOrderStatus (status : OrderStatusType) (d : DbFields)
    (w : Option WsData) : List Event :=
  [ .persist status
      { dex := d.dex, txHash := truthyStr d.txHash,
        price := truthyRat d.price, error := truthyStr d.error },
    .broadcastMsg status w ]

/-- The attempts ceiling: job.opts.attempts falls back to 3 when undefined,
and, through the falsiness of 0 under the or-operator, also when 0
(orderWorker.ts line 146). -/
def maxAttemptsOf (attemptsOpt : Option ℕ) : ℕ :=
  match attemptsOpt with
  | some n => if n = 0 then 3 else n
  | none => 3

/-- The quoted price of the selected venue (orderWorker.ts lines 98-100). -/
def quotedPriceOf (rq mq : DexQuote) (amount : ℚ) : ℚ :=
  match (compareAndRoute rq mq amount).selectedDex with
  | .Raydium => (compareAndRoute rq mq amount).raydiumQuote.price
  | .Meteora => (compareAndRoute rq mq amount).meteoraQuote.price

/-- The swap performed by the worker for the routed order. -/
def swapOf (tokenIn tokenOut : String) (rq mq : DexQuote) (amount r rs : ℚ)
    (txHash : String) : SwapResult :=
  executeSwap tokenIn tokenOut amount (compareAndRoute rq mq amount).selectedDex
    (quotedPriceOf rq mq amount) r rs txHash

/-- The enriched payload attached to the second routing message and carried
through building and submitted (orderWorker.ts lines 81-85, 90-94,
103-107). -/
def enrichedData (routing : RoutingResult) : WsData :=
  { dex := some routing.selectedDex,
    raydiumPrice := some routing.raydiumQuote.price,
    meteoraPrice := some routing.meteoraQuote.price }

/-- The error message of the throw on an unsuccessful swap
(orderWorker.ts line 139). -/
def swapErrorMessage : String := "Swap execution failed on the selected DEX"

/-- The worker's processOrder (orderWorker.ts lines 59-159) as the trace of
its awaited database writes and broadcasts together with its outcome
toward the job queue (ok when it returns, error when it re-throws).
Randomness and the fetched quotes are explicit inputs. Failures of the
external store or queue are outside the embedding: the only modelled throw
is the worker's own throw on an unsuccessful swap. -/
def processOrder (attemptsMade : ℕ) (attemptsOpt : Option ℕ)
    (tokenIn tokenOut : String) (rq mq : DexQuote) (amount r rs : ℚ)
    (txHash : String) : List Event × Except String Unit :=
  let routing := compareAndRoute rq mq amount
  let swap := swapOf tokenIn tokenOut rq mq amount r rs txHash
  let base :=
    updateOrderStatus .pending {} none ++
    updateOrderStatus .routing {} none ++
    updateOrderStatus .routing { dex := some routing.selectedDex }
      (some (enrichedData routing)) ++
    updateOrderStatus .building {} (some (enrichedData routing)) ++
    updateOrderStatus .submitted {} (some (enrichedData routing))
  if swap.success then
    (base ++ updateOrderStatus .confirmed
      { dex := some swap.dex, txHash := some swap.txHash,
        price := some swap.executedPrice }
      (some
        { dex := some swap.dex, txHash := some swap.txHash,
          executedPrice := some swap.executedPrice,
          raydiumPrice := some routing.raydiumQuote.price,
          meteoraPrice := some routing.meteoraQuote.price }),
     Except.ok ())
  else
    (base ++
      (if attemptsMade + 1 ≥ maxAttemptsOf attemptsOpt then
        updateOrderStatus .failed { error := some swapErrorMessage }
          (some { error := some swapErrorMessage })
      else []),
     Except.error swapErrorMessage)

/-- The sequence of status messages broadcast in a trace, in order. -/
def broadcastsOf (tr : List Event) : List (OrderStatusType × Option WsData) :=
  tr.filterMap fun e => match e with
    | .broadcastMsg s w => some (s, w)
    | _ => none

/-- Whether the trace persists the given status. -/
def hasStatusPersist (s : OrderStatusType) (tr : List Event) : Bool :=
  tr.any fun e => match e with
    | .persist s' _ => decide (s' = s)
    | _ => false

/-- Whether the trace broadcasts the given status. -/
def hasStatusBroadcast (s : OrderStatusType) (tr : List Event) : Bool :=
  tr.any fun e => match e with
    | .broadcastMsg s' _ => decide (s' = s)
    | _ => false

/-- Claim C2: within one attempt, the statuses broadcast by processOrder
are exactly pending, routing, routing enriched with both quote prices and
the selected venue, building, submitted, then exactly one terminal
message: confirmed (with venue, transaction hash, executed price and both
quote prices) when the swap succeeds, failed (with the error text) on the
final failing attempt, and nothing after submitted on a non-final failing
attempt. The equation holds for every attempt number, so each retried
attempt restarts the sequence from pending. -/
theorem processOrder_broadcast_sequence (attemptsMade : ℕ) (attemptsOpt : Option ℕ)
    (tokenIn tokenOut : String) (rq mq : DexQuote) (amount r rs : ℚ) (txHash : String)
    (hle : attemptsMade + 1 ≤ maxAttemptsOf attemptsOpt) :
    broadcastsOf (processOrder attemptsMade attemptsOpt tokenIn tokenOut
        rq mq amount r rs txHash).1 =
      [(.pending, none), (.routing, none),
       (.routing, some (enrichedData (compareAndRoute rq mq amount))),
       (.building, some (enrichedData (compareAndRoute rq mq amount))),
       (.submitted, some (enrichedData (compareAndRoute rq mq amount)))] ++
      (if (swapOf tokenIn tokenOut rq mq amount r rs txHash).success then
        [(.confirmed, some
          { dex := some (swapOf tokenIn tokenOut rq mq amount r rs txHash).dex,
            raydiumPrice := some (compareAndRoute rq mq amount).raydiumQuote.price,
            meteoraPrice := some (compareAndRoute rq mq amount).meteoraQuote.price,
            txHash := some (swapOf tokenIn tokenOut rq mq amount r rs txHash).txHash,
            executedPrice := some (swapOf tokenIn tokenOut rq mq amount r rs txHash).executedPrice })]
      else if attemptsMade + 1 = maxAttemptsOf attemptsOpt then
        [(.failed, some { error := some swapErrorMessage })]
      else []) := by
  cases hsw : (swapOf tokenIn tokenOut rq mq amount r rs txHash).success
  · by_cases hfin : attemptsMade + 1 ≥ maxAttemptsOf attemptsOpt
    · have heq : attemptsMade + 1 = maxAttemptsOf attemptsOpt := by omega
      simp [processOrder, hsw, hfin, heq, broadcastsOf, updateOrderStatus]
    · have hne : ¬(attemptsMade + 1 = maxAttemptsOf attemptsOpt) := by omega
      simp [processOrder, hsw, hfin, hne, broadcastsOf, updateOrderStatus]
  · simp [processOrder, hsw, broadcastsOf, updateOrderStatus]

/-- Witness for claim C2 at concrete inputs (first attempt of three, with a
successful swap draw). -/
theorem processOrder_broadcast_sequence_witness :
    broadcastsOf (processOrder 0 (some 3) "SOL" "USDC" qR qM 1 (1/2) 1 "tx").1 =
      [(.pending, none), (.routing, none),
       (.routing, some (enrichedData (compareAndRoute qR qM 1))),
       (.building, some (enrichedData (compareAndRoute qR qM 1))),
       (.submitted, some (enrichedData (compareAndRoute qR qM 1)))] ++
      (if (swapOf "SOL" "USDC" qR qM 1 (1/2) 1 "tx").success then
        [(.confirmed, some
          { dex := some (swapOf "SOL" "USDC" qR qM 1 (1/2) 1 "tx").dex,
            raydiumPrice := some (compareAndRoute qR qM 1).raydiumQuote.price,
            meteoraPrice := some (compareAndRoute qR qM 1).meteoraQuote.price,
            txHash := some (swapOf "SOL" "USDC" qR qM 1 (1/2) 1 "tx").txHash,
            executedPrice := some (swapOf "SOL" "USDC" qR qM 1 (1/2) 1 "tx").executedPrice })]
      else if 0 + 1 = maxAttemptsOf (some 3) then
        [(.failed, some { error := some swapErrorMessage })]
      else []) :=
  processOrder_broadcast_sequence 0 (some 3) "SOL" "USDC" qR qM 1 (1/2) 1 "tx"
    (by decide)

/-- Claim C3: when the swap fails, processOrder always re-raises the error
toward the job queue; it persists a failed status if and only if the
failing attempt is the final permitted one (attempt number equal to the
attempts ceiling), and likewise broadcasts a failed status if and only if
the attempt is final — so on a non-final failing attempt no failed status
is written and none is broadcast. -/
theorem processOrder_failure_policy (attemptsMade : ℕ) (attemptsOpt : Option ℕ)
    (tokenIn tokenOut : String) (rq mq : DexQuote) (amount r rs : ℚ) (txHash : String)
    (hfail : rs ≤ 1/20) (hle : attemptsMade + 1 ≤ maxAttemptsOf attemptsOpt) :
    (processOrder attemptsMade attemptsOpt tokenIn tokenOut
        rq mq amount r rs txHash).2 = Except.error swapErrorMessage ∧
    (hasStatusPersist .failed (processOrder attemptsMade attemptsOpt tokenIn tokenOut
        rq mq amount r rs txHash).1 = true ↔
      attemptsMade + 1 = maxAttemptsOf attemptsOpt) ∧
    (hasStatusBroadcast .failed (processOrder attemptsMade attemptsOpt tokenIn tokenOut
        rq mq amount r rs txHash).1 = true ↔
      attemptsMade + 1 = maxAttemptsOf attemptsOpt) := by
  have hsw : (swapOf tokenIn tokenOut rq mq amount r rs txHash).success = false := by
    simp only [swapOf, executeSwap, decide_eq_false_iff_not, not_lt]
    linarith
  by_cases hfin : attemptsMade + 1 ≥ maxAttemptsOf attemptsOpt
  · have heq : attemptsMade + 1 = maxAttemptsOf attemptsOpt := by omega
    simp [processOrder, hsw, hfin, heq, hasStatusPersist, hasStatusBroadcast,
      updateOrderStatus]
  · have hne : ¬(attemptsMade + 1 = maxAttemptsOf attemptsOpt) := by omega
    simp [processOrder, hsw, hfin, hne, hasStatusPersist, hasStatusBroadcast,
      updateOrderStatus]

/-- Witness for claim C3: a failing swap draw on the final attempt of
three. -/
theorem processOrder_failure_policy_witness :
    (processOrder 2 (some 3) "SOL" "USDC" qR qM 1 (1/2) 0 "tx").2 =
      Except.error swapErrorMessage ∧
    (hasStatusPersist .failed (processOrder 2 (some 3) "SOL" "USDC"
        qR qM 1 (1/2) 0 "tx").1 = true ↔
      2 + 1 = maxAttemptsOf (some 3)) ∧
    (hasStatusBroadcast .failed (processOrder 2 (some 3) "SOL" "USDC"
        qR qM 1 (1/2) 0 "tx").1 = true ↔
      2 + 1 = maxAttemptsOf (some 3)) :=
  processOrder_failure_policy 2 (some 3) "SOL" "USDC" qR qM 1 (1/2) 0 "tx"
    (by norm_num) (by decide)

/-- Agreement between persisted columns and a broadcast payload: every
column the database write sets carries the same value the broadcast
payload carries for the corresponding field (the price column holds the
executed price). -/
def fieldsCompat (d : DbFields) (w : Option WsData) : Prop :=
  (∀ x, d.dex = some x → Option.bind w WsData.dex = some x) ∧
  (∀ x, d.txHash = some x → Option.bind w WsData.txHash = some x) ∧
  (∀ x, d.price = some x → Option.bind w WsData.executedPrice = some x) ∧
  (∀ x, d.error = some x → Option.bind w WsData.error = some x)

/-- One persist-then-broadcast pair for the same status with agreeing
fields. -/
def okPair (e1 e2 : Event) : Prop :=
  match e1, e2 with
  | Event.persist s d, Event.broadcastMsg s' w => s' = s ∧ fieldsCompat d w
  | _, _ => False

/-- A trace made of persist-then-broadcast pairs for one status each, with
agreeing fields. -/
def okBlocks : List Event → Prop
  | [] => True
  | e1 :: rest1 =>
    match rest1 with
    | [] => False
    | e2 :: rest => okPair e1 e2 ∧ okBlocks rest

lemma okBlocks_precedes (i : ℕ) : ∀ (l : List Event), okBlocks l →
    ∀ s w, l[i]? = some (Event.broadcastMsg s w) →
    ∃ j, j < i ∧ ∃ d, l[j]? = some (Event.persist s d) ∧ fieldsCompat d w := by
  induction i using Nat.strong_induction_on with
  | _ i ih =>
    intro l hok s w hb
    match l with
    | [] => simp at hb
    | [e] => exact absurd hok (by simp [okBlocks])
    | e1 :: e2 :: rest =>
      simp only [okBlocks] at hok
      obtain ⟨hpair, hrest⟩ := hok
      cases e1 with
      | broadcastMsg s0 w0 => exact absurd hpair (by cases e2 <;> simp [okPair])
      | persist s0 d0 =>
        cases e2 with
        | persist s1 d1 => exact absurd hpair (by simp [okPair])
        | broadcastMsg s1 w1 =>
          simp only [okPair] at hpair
          obtain ⟨hs, hc⟩ := hpair
          subst hs
          match i with
          | 0 => simp at hb
          | 1 =>
            simp only [List.getElem?_cons_succ, List.getElem?_cons_zero,
              Option.some.injEq, Event.broadcastMsg.injEq] at hb
            obtain ⟨hs1, hw1⟩ := hb
            subst hs1
            subst hw1
            exact ⟨0, Nat.zero_lt_one, d0, by simp, hc⟩
          | (k + 2) =>
            have hb' : rest[k]? = some (Event.broadcastMsg s w) := by
              simpa using hb
            obtain ⟨j, hj, d, hd, hcd⟩ := ih k (by omega) rest hrest s w hb'
            refine ⟨j + 2, by omega, d, ?_, hcd⟩
            simpa using hd

lemma fieldsCompat_none (w : Option WsData) :
    fieldsCompat
      { dex := none, txHash := truthyStr none,
        price := truthyRat none, error := truthyStr none } w := by
  refine ⟨?_, ?_, ?_, ?_⟩ <;> intro x hx <;> simp [truthyStr, truthyRat] at hx

lemma fieldsCompat_enriched (routing : RoutingResult) :
    fieldsCompat
      { dex := some routing.selectedDex, txHash := truthyStr none,
        price := truthyRat none, error := truthyStr none }
      (some (enrichedData routing)) := by
  refine ⟨?_, ?_, ?_, ?_⟩ <;> intro x hx <;>
    simp [truthyStr, truthyRat] at hx <;> simp [enrichedData, ← hx]

lemma fieldsCompat_confirmed (swap : SwapResult) (routing : RoutingResult) :
    fieldsCompat
      { dex := some swap.dex, txHash := truthyStr (some swap.txHash),
        price := truthyRat (some swap.executedPrice), error := truthyStr none }
      (some
        { dex := some swap.dex, txHash := some swap.txHash,
          executedPrice := some swap.executedPrice,
          raydiumPrice := some routing.raydiumQuote.price,
          meteoraPrice := some routing.meteoraQuote.price }) := by
  refine ⟨fun x hx => ?_, fun x hx => ?_, fun x hx => ?_, fun x hx => ?_⟩ <;>
    simp only [truthyStr, truthyRat, Option.some_bind] at hx ⊢ <;>
    first
      | (rw [← Option.some.injEq] at hx ⊢; simp_all)
      | (split at hx <;> simp_all)

lemma fieldsCompat_failed :
    fieldsCompat
      { dex := none, txHash := truthyStr none, price := truthyRat none,
        error := truthyStr (some swapErrorMessage) }
      (some { error := some swapErrorMessage }) := by
  refine ⟨?_, ?_, ?_, ?_⟩ <;> intro x hx <;>
    simp [truthyStr, truthyRat, swapErrorMessage] at hx <;>
    simp [← hx, swapErrorMessage]

lemma processOrder_okBlocks (attemptsMade : ℕ) (attemptsOpt : Option ℕ)
    (tokenIn tokenOut : String) (rq mq : DexQuote) (amount r rs : ℚ)
    (txHash : String) :
    okBlocks (processOrder attemptsMade attemptsOpt tokenIn tokenOut
      rq mq amount r rs txHash).1 := by
  cases hsw : (swapOf tokenIn tokenOut rq mq amount r rs txHash).success <;>
    by_cases hfin : attemptsMade + 1 ≥ maxAttemptsOf attemptsOpt <;>
    simp only [processOrder, hsw, hfin, Bool.false_eq_true, if_false, if_true,
      ite_true, ite_false, updateOrderStatus, List.cons_append, List.nil_append,
      List.append_nil, okBlocks, okPair] <;>
    refine ⟨⟨by trivial, fieldsCompat_none _⟩, ⟨by trivial, fieldsCompat_none _⟩,
      ⟨by trivial, fieldsCompat_enriched _⟩, ⟨by trivial, fieldsCompat_none _⟩,
      ⟨by trivial, fieldsCompat_none _⟩, ?_⟩ <;>
    first
      | exact ⟨⟨by trivial, fieldsCompat_confirmed _ _⟩, trivial⟩
      | exact ⟨⟨by trivial, fieldsCompat_failed⟩, trivial⟩
      | trivial

/-- Claim C4: in every trace of processOrder, a broadcast of a status with
a payload is strictly preceded by a database persist of that same status
whose written columns agree with the broadcast payload, so a broadcast is
never sent for a state that was not persisted first. -/
theorem processOrder_persist_before_broadcast (attemptsMade : ℕ)
    (attemptsOpt : Option ℕ) (tokenIn tokenOut : String) (rq mq : DexQuote)
    (amount r rs : ℚ) (txHash : String) (i : ℕ) (s : OrderStatusType)
    (w : Option WsData)
    (hb : (processOrder attemptsMade attemptsOpt tokenIn tokenOut
        rq mq amount r rs txHash).1[i]? = some (Event.broadcastMsg s w)) :
    ∃ j, j < i ∧ ∃ d, (processOrder attemptsMade attemptsOpt tokenIn tokenOut
        rq mq amount r rs txHash).1[j]? = some (Event.persist s d) ∧
      fieldsCompat d w :=
  okBlocks_precedes i _ (processOrder_okBlocks attemptsMade attemptsOpt
    tokenIn tokenOut rq mq amount r rs txHash) s w hb

/-- Witness for claim C4: the pending broadcast at index 1 of a concrete
trace is preceded by its persist. -/
theorem processOrder_persist_before_broadcast_witness :
    ∃ j, j < 1 ∧ ∃ d, (processOrder 0 (some 3) "SOL" "USDC"
        qR qM 1 0 1 "tx").1[j]? = some (Event.persist .pending d) ∧
      fieldsCompat d none :=
  processOrder_persist_before_broadcast 0 (some 3) "SOL" "USDC" qR qM 1 0 1 "tx"
    1 .pending none
    (by
      have hsw : (swapOf "SOL" "USDC" qR qM 1 0 1 "tx").success = true := by
        simp only [swapOf, executeSwap, decide_eq_true_eq]
        norm_num
      simp [processOrder, hsw, updateOrderStatus, List.cons_append,
        List.nil_append])

/-- A subscriber handle: an identity plus the socket state observable at
send time (readyState 1 is the OPEN state; sendFails set means the send
call raises). -/
structure Conn where
  id : ℕ
  readyState : ℕ
  sendFails : Bool
deriving DecidableEq, Repr

/-- A send to this subscriber succeeds: the socket is open and send does
not raise (websocket.ts lines 213-229). -/
def Conn.ok (c : Conn) : Bool := c.readyState == 1 && !c.sendFails

/-- JavaScript Set.add on a duplicate-free list: append if absent,
preserving insertion order. -/
def setAdd (l : List Conn) (c : Conn) : List Conn :=
  if c ∈ l then l else l ++ [c]

/-- JavaScript Set.delete: remove the element. -/
def setDelete (l : List Conn) (c : Conn) : List Conn :=
  l.filter fun x => decide (x ≠ c)

/-- Map.get on the room map: the value of the first entry with this key. -/
def roomsGet (rooms : List (String × List Conn)) (orderId : String) :
    Option (List Conn) :=
  match rooms with
  | [] => none
  | p :: rest => if p.1 = orderId then some p.2 else roomsGet rest orderId

/-- Map.set on the room map, modelled as remove-the-key-then-append; the
key-to-value mapping and the entry count agree with the source's Map, and
no claim observes entry order. -/
def roomsSet (rooms : List (String × List Conn)) (orderId : String)
    (room : List Conn) : List (String × List Conn) :=
  (rooms.filter fun p => decide (p.1 ≠ orderId)) ++ [(orderId, room)]

/-- Map.delete on the room map. -/
def roomsDelete (rooms : List (String × List Conn)) (orderId : String) :
    List (String × List Conn) :=
  rooms.filter fun p => decide (p.1 ≠ orderId)

/-- The WebSocketManager state (websocket.ts lines 147-152): the room map
keyed by order id and the flat set of all connections. -/
structure WSManager where
  rooms : List (String × List Conn) := []
  allConnections : List Conn := []
deriving DecidableEq, Repr

/-- WebSocketManager.joinRoom (websocket.ts lines 157-176): create the room
if missing, add the socket to it and to the global set. The close and
error callbacks it registers invoke leaveRoom later and are events outside
this state transition. -/
def joinRoom (m : WSManager) (orderId : String) (ws : Conn) : WSManager :=
  let room := (roomsGet m.rooms orderId).getD []
  { rooms := roomsSet m.rooms orderId (setAdd room ws),
    allConnections := setAdd m.allConnections ws }

/-- WebSocketManager.leaveRoom (websocket.ts lines 181-196): remove the
socket from the room if the room exists, drop the room entry when it
becomes empty, and always remove the socket from the global set. -/
def leaveRoom (m : WSManager) (orderId : String) (ws : Conn) : WSManager :=
  match roomsGet m.rooms orderId with
  | some room =>
    let room2 := setDelete room ws
    { rooms := if room2.length = 0 then roomsDelete m.rooms orderId
        else roomsSet m.rooms orderId room2,
      allConnections := setDelete m.allConnections ws }
  | none => { m with allConnections := setDelete m.allConnections ws }

/-- WebSocketManager.broadcast (websocket.ts lines 201-234): return
unchanged when the room is missing or empty; otherwise send to every open
subscriber, removing each unreachable subscriber (not open, or send
raised) from the room and from the global set. The second component is the
list of subscribers the serialized message was sent to. -/
def broadcast (m : WSManager) (orderId : String)
    (message : OrderStatusType × Option WsData) : WSManager × List Conn :=
  match roomsGet m.rooms orderId with
  | none => (m, [])
  | some room =>
    if room.isEmpty then (m, [])
    else
      ({ rooms := roomsSet m.rooms orderId (room.filter Conn.ok),
         allConnections := m.allConnections.filter fun c =>
           Conn.ok c || decide (c ∉ room) },
       room.filter Conn.ok)

/-- WebSocketManager.cleanup (websocket.ts lines 276-292): close every
tracked connection and clear all state. -/
def cleanup (m : WSManager) : WSManager :=
  { rooms := [], allConnections := [] }

/-- WebSocketManager.getRoomCount. -/
def getRoomCount (m : WSManager) : ℕ := m.rooms.length

/-- WebSocketManager.getConnectionCount. -/
def getConnectionCount (m : WSManager) : ℕ := m.allConnections.length

/-- The containment invariant: every subscriber present in any room is
also in the global connection set. -/
def roomsSubset (m : WSManager) : Prop :=
  ∀ p ∈ m.rooms, ∀ c ∈ p.2, c ∈ m.allConnections

instance (m : WSManager) : Decidable (roomsSubset m) :=
  decidable_of_iff (∀ p ∈ m.rooms, ∀ c ∈ p.2, c ∈ m.allConnections) Iff.rfl

lemma mem_setAdd {c x : Conn} {l : List Conn} :
    c ∈ setAdd l x ↔ c ∈ l ∨ c = x := by
  by_cases h : x ∈ l
  · simp only [setAdd, if_pos h]
    constructor
    · exact Or.inl
    · rintro (h1 | rfl)
      · exact h1
      · exact h
  · simp [setAdd, h]

lemma mem_setDelete {c x : Conn} {l : List Conn} :
    c ∈ setDelete l x ↔ c ∈ l ∧ c ≠ x := by
  simp [setDelete]

lemma mem_roomsSet {p : String × List Conn} {l : List (String × List Conn)}
    {k : String} {v : List Conn} :
    p ∈ roomsSet l k v ↔ (p ∈ l ∧ p.1 ≠ k) ∨ p = (k, v) := by
  simp [roomsSet]

lemma mem_roomsDelete {p : String × List Conn} {l : List (String × List Conn)}
    {k : String} :
    p ∈ roomsDelete l k ↔ p ∈ l ∧ p.1 ≠ k := by
  simp [roomsDelete]

lemma roomsGet_mem {l : List (String × List Conn)} {k : String} {v : List Conn}
    (h : roomsGet l k = some v) : (k, v) ∈ l := by
  induction l with
  | nil => simp [roomsGet] at h
  | cons p rest ih =>
    rw [roomsGet] at h
    split at h
    · rename_i hk
      obtain rfl := Option.some.injEq .. |>.mp h
      have hp : p = (k, p.2) := by
        obtain ⟨k', v'⟩ := p
        simp only at hk
        rw [hk]
      exact hp ▸ List.mem_cons_self p rest
    · exact List.mem_cons_of_mem p (ih h)

lemma roomsGet_append_skip (A : List (String × List Conn)) (k : String)
    (v : List Conn) (hA : ∀ p ∈ A, p.1 ≠ k) :
    roomsGet (A ++ [(k, v)]) k = some v := by
  induction A with
  | nil => simp [roomsGet]
  | cons p rest ih =>
    rw [List.cons_append, roomsGet, if_neg (hA p (List.mem_cons_self p rest))]
    exact ih fun q hq => hA q (List.mem_cons_of_mem p hq)

lemma roomsGet_roomsSet (l : List (String × List Conn)) (k : String)
    (v : List Conn) : roomsGet (roomsSet l k v) k = some v := by
  apply roomsGet_append_skip
  intro p hp
  rw [List.mem_filter] at hp
  simpa using hp.2

lemma roomsGet_none {l : List (String × List Conn)} {k : String}
    (h : roomsGet l k = none) : ∀ p ∈ l, p.1 ≠ k := by
  induction l with
  | nil => simp
  | cons p rest ih =>
    rw [roomsGet] at h
    split at h
    · simp at h
    · rename_i hk
      intro q hq
      rcases List.mem_cons.mp hq with rfl | hq'
      · exact hk
      · exact ih h q hq'

/-- Claim C9: broadcasting to an order id with zero subscribers (no room,
or an empty room) is a no-op: it raises no error, sends to nobody, leaves
the state unchanged, and in particular keeps the room count unchanged (0
when no rooms exist). -/
theorem broadcast_no_subscribers (m : WSManager) (orderId : String)
    (msg : OrderStatusType × Option WsData)
    (h : roomsGet m.rooms orderId = none ∨ roomsGet m.rooms orderId = some []) :
    broadcast m orderId msg = (m, []) ∧
    getRoomCount (broadcast m orderId msg).1 = getRoomCount m := by
  have heq : broadcast m orderId msg = (m, []) := by
    rcases h with h | h <;> simp [broadcast, h]
  exact ⟨heq, by rw [heq]⟩

/-- Witness for claim C9 on the empty manager. -/
theorem broadcast_no_subscribers_witness :
    broadcast ⟨[], []⟩ "order1" (.pending, none) = (⟨[], []⟩, []) ∧
    getRoomCount (broadcast ⟨[], []⟩ "order1" (.pending, none)).1 =
      getRoomCount ⟨[], []⟩ :=
  broadcast_no_subscribers ⟨[], []⟩ "order1" (.pending, none) (Or.inl rfl)

/-- A closed connection used as a concrete evaluation point (readyState 3
is the CLOSED state). -/
def deadConn : Conn := ⟨1, 3, false⟩

/-- The one-room manager whose only subscriber is closed, used as a
concrete evaluation point. -/
def m6 : WSManager := ⟨[("o1", [deadConn])], [deadConn]⟩

/-- Counterexample to claim C6 as stated: broadcasting to a room whose only
subscriber is closed removes the subscriber from the room and from the
global set, but the now-empty room's entry is NOT removed from the room
map (only leaveRoom prunes empty rooms); the entry remains, mapped to the
empty set, and the room count stays 1. -/
theorem broadcast_keeps_empty_room_entry :
    (broadcast m6 "o1" (.pending, none)).1 = ⟨[("o1", [])], []⟩ ∧
    roomsGet (broadcast m6 "o1" (.pending, none)).1.rooms "o1" = some [] ∧
    getRoomCount (broadcast m6 "o1" (.pending, none)).1 = 1 := by decide

/-- Claim C6 (amended): broadcast removes every subscriber that is
unreachable at send time from the room and from the global connection set,
but it never removes the room's entry itself: the entry stays in the room
map (mapped to the reachable subscribers, possibly none), and empty-room
pruning happens only in leaveRoom. -/
theorem broadcast_prunes_unreachable (m : WSManager) (orderId : String)
    (msg : OrderStatusType × Option WsData) (room : List Conn)
    (hroom : roomsGet m.rooms orderId = some room) (hne : room ≠ []) :
    roomsGet (broadcast m orderId msg).1.rooms orderId =
      some (room.filter Conn.ok) ∧
    ∀ c ∈ room, Conn.ok c = false →
      c ∉ room.filter Conn.ok ∧ c ∉ (broadcast m orderId msg).1.allConnections := by
  have hne' : room.isEmpty = false := by
    cases room
    · exact absurd rfl hne
    · rfl
  have hbr : (broadcast m orderId msg).1 =
      { rooms := roomsSet m.rooms orderId (room.filter Conn.ok),
        allConnections := m.allConnections.filter fun c =>
          Conn.ok c || decide (c ∉ room) } := by
    simp [broadcast, hroom, hne']
  rw [hbr]
  refine ⟨?_, fun c hcm hcok => ⟨?_, ?_⟩⟩
  · exact roomsGet_roomsSet m.rooms orderId (room.filter Conn.ok)
  · simp [List.mem_filter, hcok]
  · simp only [List.mem_filter]
    rintro ⟨-, hpred⟩
    simp [hcok, hcm] at hpred

/-- Witness for claim C6's amended theorem on the concrete one-room
manager. -/
theorem broadcast_prunes_unreachable_witness :
    roomsGet (broadcast m6 "o1" (.pending, none)).1.rooms "o1" =
      some ([deadConn].filter Conn.ok) ∧
    ∀ c ∈ [deadConn], Conn.ok c = false →
      c ∉ [deadConn].filter Conn.ok ∧
      c ∉ (broadcast m6 "o1" (.pending, none)).1.allConnections :=
  broadcast_prunes_unreachable m6 "o1" (.pending, none) [deadConn]
    (by decide) (by decide)

/-- Counterexample to claim C10 as stated: a handle subscribed to two
rooms satisfies the containment invariant, but leaveRoom on one of the
rooms removes the handle from the global connection set while it is still
a member of the other room, so the invariant is not preserved by
leaveRoom. -/
theorem leaveRoom_breaks_subset_invariant :
    roomsSubset (joinRoom (joinRoom ⟨[], []⟩ "a" ⟨1, 1, false⟩) "b" ⟨1, 1, false⟩) ∧
    ¬ roomsSubset (leaveRoom (joinRoom (joinRoom ⟨[], []⟩ "a" ⟨1, 1, false⟩) "b"
        ⟨1, 1, false⟩) "a" ⟨1, 1, false⟩) := by decide

/-- Claim C10 (amended): the containment invariant (every room member is in
the global connection set) is preserved unconditionally by joinRoom and
cleanup; leaveRoom preserves it provided the removed handle is in no room
other than the one it leaves, and broadcast preserves it provided no
member of another room is an unreachable member of the target room — in
general (a handle subscribed to two orders) leaveRoom and broadcast can
break it, as the counterexample shows. -/
theorem fanout_subset_invariant (m : WSManager) (orderId : String) (ws : Conn)
    (msg : OrderStatusType × Option WsData) :
    (roomsSubset m → roomsSubset (joinRoom m orderId ws)) ∧
    roomsSubset (cleanup m) ∧
    (roomsSubset m → (∀ p ∈ m.rooms, p.1 ≠ orderId → ws ∉ p.2) →
      roomsSubset (leaveRoom m orderId ws)) ∧
    (roomsSubset m →
      (∀ p ∈ m.rooms, p.1 ≠ orderId → ∀ c ∈ p.2,
        Conn.ok c = true ∨ c ∉ (roomsGet m.rooms orderId).getD []) →
      roomsSubset (broadcast m orderId msg).1) := by
  refine ⟨?_, ?_, ?_, ?_⟩
  · intro hinv p hp c hc
    simp only [joinRoom] at hp hc ⊢
    rw [mem_roomsSet] at hp
    rcases hp with ⟨hpl, -⟩ | rfl
    · exact mem_setAdd.mpr (Or.inl (hinv p hpl c hc))
    · rcases mem_setAdd.mp hc with hcr | rfl
      · rcases hget : roomsGet m.rooms orderId with _ | r
        · rw [hget] at hcr
          simp at hcr
        · rw [hget] at hcr
          simp only [Option.getD_some] at hcr
          exact mem_setAdd.mpr (Or.inl (hinv (orderId, r) (roomsGet_mem hget) c hcr))
      · exact mem_setAdd.mpr (Or.inr rfl)
  · intro p hp
    simp [cleanup] at hp
  · intro hinv hside p hp c hc
    rcases hget : roomsGet m.rooms orderId with _ | r
    · simp only [leaveRoom, hget] at hp hc ⊢
      have hpk : p.1 ≠ orderId := roomsGet_none hget p hp
      exact mem_setDelete.mpr ⟨hinv p hp c hc,
        fun h => hside p hp hpk (h ▸ hc)⟩
    · simp only [leaveRoom, hget] at hp hc ⊢
      by_cases hlen : (setDelete r ws).length = 0
      · rw [if_pos hlen] at hp
        rw [mem_roomsDelete] at hp
        obtain ⟨hpl, hpk⟩ := hp
        exact mem_setDelete.mpr ⟨hinv p hpl c hc,
          fun h => hside p hpl hpk (h ▸ hc)⟩
      · rw [if_neg hlen] at hp
        rw [mem_roomsSet] at hp
        rcases hp with ⟨hpl, hpk⟩ | rfl
        · exact mem_setDelete.mpr ⟨hinv p hpl c hc,
            fun h => hside p hpl hpk (h ▸ hc)⟩
        · obtain ⟨hcr, hcw⟩ := mem_setDelete.mp hc
          exact mem_setDelete.mpr
            ⟨hinv (orderId, r) (roomsGet_mem hget) c hcr, hcw⟩
  · intro hinv hside p hp c hc
    rcases hget : roomsGet m.rooms orderId with _ | r
    · simp only [broadcast, hget] at hp hc ⊢
      exact hinv p hp c hc
    · cases hemp : r.isEmpty
      · simp only [broadcast, hget, hemp, Bool.false_eq_true, if_false] at hp hc ⊢
        rw [mem_roomsSet] at hp
        rcases hp with ⟨hpl, hpk⟩ | rfl
        · have hcall := hinv p hpl c hc
          have hcond := hside p hpl hpk c hc
          rw [hget] at hcond
          simp only [Option.getD_some] at hcond
          rw [List.mem_filter]
          refine ⟨hcall, ?_⟩
          rcases hcond with hok | hnr
          · simp [hok]
          · simp [hnr]
        · rw [List.mem_filter] at hc
          obtain ⟨hcr, hcok⟩ := hc
          rw [List.mem_filter]
          exact ⟨hinv (orderId, r) (roomsGet_mem hget) c hcr, by simp [hcok]⟩
      · simp only [broadcast, hget, hemp, if_true] at hp hc ⊢
        exact hinv p hp c hc

/-- Witness for claim C10's amended theorem: joinRoom of a second handle
and leaveRoom of the only handle both preserve the invariant on a concrete
one-room manager. -/
theorem fanout_subset_invariant_witness :
    roomsSubset (joinRoom ⟨[("a", [⟨1, 1, false⟩])], [⟨1, 1, false⟩]⟩ "a"
      ⟨2, 1, false⟩) ∧
    roomsSubset (leaveRoom ⟨[("a", [⟨1, 1, false⟩])], [⟨1, 1, false⟩]⟩ "a"
      ⟨1, 1, false⟩) ∧
    roomsSubset (broadcast ⟨[("a", [⟨1, 1, false⟩])], [⟨1, 1, false⟩]⟩ "a"
      (.pending, none)).1 :=
  ⟨(fanout_subset_invariant ⟨[("a", [⟨1, 1, false⟩])], [⟨1, 1, false⟩]⟩ "a"
      ⟨2, 1, false⟩ (.pending, none)).1 (by decide),
   (fanout_subset_invariant ⟨[("a", [⟨1, 1, false⟩])], [⟨1, 1, false⟩]⟩ "a"
      ⟨1, 1, false⟩ (.pending, none)).2.2.1 (by decide) (by decide),
   (fanout_subset_invariant ⟨[("a", [⟨1, 1, false⟩])], [⟨1, 1, false⟩]⟩ "a"
      ⟨1, 1, false⟩ (.pending, none)).2.2.2 (by decide) (by decide)⟩

end DexEngine
